import Mathlib

/-
Verification of the CRS-aware geometry store described in the repository's
specification.  The repository itself (`03a_Intro_to_GIS_Vector_Data.ipynb`)
is a teaching notebook whose cells call `set_crs`, `to_crs` and `.area` on
loaded collections; the implementations of those operations live in an
external library and are not part of the repository's sources, so the
operations below are modelled from the specification's own description of
the component (spec sections 3, 4, 7 and 8).

Encoding conventions:
- coordinates are exact rationals (the spec's numeric tolerance statements
  are kept abstract as a tolerance parameter);
- the spec's CRS value "undefined" is encoded as `none : Option CRS`;
- the coordinate transform functions between CRS pairs are external inputs,
  so `reproject` is parameterized by a transform family `tf`;
- errors are returned through `Except GISError`.
-/

namespace GIS

/-- A vertex: an (x, y) coordinate pair. -/
structure Coord where
  x : ℚ
  y : ℚ
deriving DecidableEq, Repr

/-- Modelled from the spec: a CRS "carries a unit system (angular degrees vs.
linear meters)". -/
inductive UnitKind where
  | angular
  | linear
deriving DecidableEq, Repr

/-- Modelled from the spec: a CRS is "identified by a stable code", carries a
unit system and "a validity envelope (e.g., Web Mercator is
undefined/inaccurate beyond ±85° latitude)".  The envelope is an optional
axis-aligned box of valid input coordinates; `none` means unbounded. -/
structure CRS where
  code : String
  units : UnitKind
  envelope : Option (ℚ × ℚ × ℚ × ℚ)
deriving DecidableEq, Repr

/-- Whether a coordinate lies inside a CRS's validity envelope. -/
def inEnvelope (a : CRS) (p : Coord) : Bool :=
  match a.envelope with
  | none => true
  | some (xmin, ymin, xmax, ymax) =>
      decide (xmin ≤ p.x) && decide (p.x ≤ xmax) &&
      decide (ymin ≤ p.y) && decide (p.y ≤ ymax)

/-- Modelled from the spec: a geometric shape is a "Point, LineString, or
Polygon". -/
inductive Geometry where
  | point (p : Coord)
  | lineString (ps : List Coord)
  | polygon (ring : List Coord)
deriving DecidableEq, Repr

/-- The ordered list of vertices of a geometry. -/
def Geometry.coords : Geometry → List Coord
  | .point p => [p]
  | .lineString ps => ps
  | .polygon ring => ring

/-- Apply a coordinate transform to every vertex of a geometry. -/
def Geometry.mapCoords (f : Coord → Coord) : Geometry → Geometry
  | .point p => .point (f p)
  | .lineString ps => .lineString (ps.map f)
  | .polygon ring => .polygon (ring.map f)

/-- Modelled from the spec: a Feature is "one geometric shape ... plus an
ordered mapping of attribute name → value". -/
structure Feature where
  geometry : Geometry
  attrs : List (String × String)
deriving DecidableEq, Repr

/-- Modelled from the spec: a FeatureCollection is an "ordered sequence of
Features sharing one coordinate reference system at any instant"; the single
shared CRS is the collection's tag, `none` encoding the spec's "undefined". -/
structure FeatureCollection where
  crs : Option CRS
  features : List Feature
deriving DecidableEq, Repr

/-- Modelled from the spec's error taxonomy (section 7). -/
inductive GISError where
  | formatError
  | invalidCRSError
  | undefinedCRSError
  | projectionRangeError
deriving DecidableEq, Repr

/-- All vertices of all features of a collection, in feature order. -/
def allCoords (c : FeatureCollection) : List Coord :=
  (c.features.map (fun f => f.geometry.coords)).flatten

/-- Modelled from the spec: `set_crs` "assigns a CRS label WITHOUT altering
coordinate values.  Fails with `InvalidCRSError` if the collection already has
a different, non-undefined CRS set."  CRSs are identified by their stable
code. -/
def set_crs (c : FeatureCollection) (a : CRS) : Except GISError FeatureCollection :=
  match c.crs with
  | none => .ok { c with crs := some a }
  | some b => if b.code = a.code then .ok c else .error .invalidCRSError

/-- Replace a feature's geometry by its image under a coordinate transform;
attributes are untouched. -/
def transformFeature (f : Coord → Coord) (ft : Feature) : Feature :=
  { ft with geometry := ft.geometry.mapCoords f }

/-- Modelled from the spec: `reproject` "applies the coordinate transform
function for (source_crs → target_crs) to every vertex of every geometry in
the collection, producing a new collection tagged with `target_crs`.  Fails
with `UndefinedCRSError` if source CRS is undefined.  Fails with
`ProjectionRangeError` if any input coordinate lies outside the target
projection's valid envelope."  The transform family `tf` is an external
input. -/
def reproject (tf : CRS → CRS → Coord → Coord) (c : FeatureCollection)
    (t : CRS) : Except GISError FeatureCollection :=
  match c.crs with
  | none => .error .undefinedCRSError
  | some s =>
      if (allCoords c).all (fun v => inEnvelope t v) then
        .ok { crs := some t, features := c.features.map (transformFeature (tf s t)) }
      else
        .error .projectionRangeError

/-- Twice the signed shoelace cross-product sum of a ring, used for the raw
coordinate-based polygon area. -/
def crossSum (first : Coord) : List Coord → ℚ
  | [] => 0
  | [p] => p.x * first.y - first.x * p.y
  | p :: q :: rest => (p.x * q.y - q.x * p.y) + crossSum first (q :: rest)

/-- Raw coordinate-based area of a geometry (shoelace formula for polygons;
points and lines have zero area). -/
def Geometry.area : Geometry → ℚ
  | .polygon (p :: ps) => |crossSum p (p :: ps)| / 2
  | _ => 0

/-- Sum of per-segment measures along a path, for a given segment metric. -/
def pathLen (seg : Coord → Coord → ℚ) : List Coord → ℚ
  | p :: q :: rest => seg p q + pathLen seg (q :: rest)
  | _ => 0

/-- Raw coordinate-based length of a geometry for a given segment metric
(the Euclidean metric itself involves square roots and is external; the
warning behaviour is independent of it, so the metric is a parameter). -/
def Geometry.lengthWith (seg : Coord → Coord → ℚ) : Geometry → ℚ
  | .point _ => 0
  | .lineString ps => pathLen seg ps
  | .polygon [] => 0
  | .polygon (p :: ps) => pathLen seg ((p :: ps) ++ [p])

/-- Whether the collection's CRS has angular (degree) units. -/
def angularUnits (c : FeatureCollection) : Bool :=
  match c.crs with
  | some a => decide (a.units = UnitKind.angular)
  | none => false

/-- Modelled from the spec: `area` is "computed per feature" and signals a
`UnitMismatchWarning` "when the CRS's unit system is angular"; the warning is
the Boolean second component (non-fatal metadata), and the computation always
proceeds. -/
def areaOp (c : FeatureCollection) : List ℚ × Bool :=
  (c.features.map (fun f => f.geometry.area), angularUnits c)

/-- Modelled from the spec: `length` is "computed per feature" with the same
`UnitMismatchWarning` metadata as `area`. -/
def lengthOp (seg : Coord → Coord → ℚ) (c : FeatureCollection) : List ℚ × Bool :=
  (c.features.map (fun f => f.geometry.lengthWith seg), angularUnits c)

/-- One folding step of the bounding-box computation. -/
def boundsStep (acc : ℚ × ℚ × ℚ × ℚ) (q : Coord) : ℚ × ℚ × ℚ × ℚ :=
  (min acc.1 q.x, min acc.2.1 q.y, max acc.2.2.1 q.x, max acc.2.2.2 q.y)

/-- Modelled from the spec: `bounds` is the "axis-aligned bounding box over
all features' geometries in the collection's current CRS; recomputed fresh
each call".  `none` for an empty collection. -/
def bounds (c : FeatureCollection) : Option (ℚ × ℚ × ℚ × ℚ) :=
  match allCoords c with
  | [] => none
  | p :: ps => some (ps.foldl boundsStep (p.x, p.y, p.x, p.y))

/-- Modelled from the spec's design notes: the notebook's global variables
holding collections become an explicit store of named bindings. -/
abbrev Store := List (String × FeatureCollection)

/-- Modelled from the spec: the notebook call pattern
`data_in_3857 = data.to_crs(...)` as an operation on the store: read the
source binding, reproject, and on success bind the new collection to the
destination name; the store is unchanged on failure. -/
def runReproject (tf : CRS → CRS → Coord → Coord) (s : Store)
    (src dst : String) (t : CRS) : Store :=
  match List.lookup src s with
  | none => s
  | some c =>
      match reproject tf c t with
      | .ok d => (dst, d) :: s
      | .error _ => s

/-- Chebyshev distance between two coordinates, used to state numerical
round-trip tolerance. -/
def cdist (p q : Coord) : ℚ :=
  max |p.x - q.x| |p.y - q.y|

/-- Modelled from the spec: every feature's CRS is the collection's single
shared tag. -/
def featureCRS (c : FeatureCollection) (_i : Nat) : Option CRS :=
  c.crs

/-- WGS84, an angular-unit CRS with unbounded envelope (demo fixture). -/
def wgs84 : CRS := ⟨"EPSG:4326", .angular, none⟩

/-- Web Mercator, a linear-unit CRS valid only within ±85° latitude
(demo fixture, envelope per the spec's data model). -/
def webMercator : CRS := ⟨"EPSG:3857", .linear, some (-180, -85, 180, 85)⟩

/-- Identity transform family (demo fixture for witnesses). -/
def idTf : CRS → CRS → Coord → Coord := fun _ _ p => p

/-- Zero segment metric (demo fixture for witnesses). -/
def segZero : Coord → Coord → ℚ := fun _ _ => 0

/-- A one-polygon collection tagged WGS84 (demo fixture). -/
def demoC : FeatureCollection :=
  ⟨some wgs84, [⟨.polygon [⟨10, 20⟩, ⟨11, 20⟩, ⟨11, 21⟩], [("name", "demo")]⟩]⟩

/-- The demo collection retagged to Web Mercator, the result of reprojecting
`demoC` under the identity transform family (demo fixture). -/
def demoC3857 : FeatureCollection := ⟨some webMercator, demoC.features⟩

/-- A collection with no CRS assigned (demo fixture). -/
def demoU : FeatureCollection :=
  ⟨none, [⟨.point ⟨1, 2⟩, [("name", "u")]⟩]⟩

/-- A point near latitude 89°, tagged WGS84 (demo fixture for the
projection-range scenario). -/
def demoPolar : FeatureCollection :=
  ⟨some wgs84, [⟨.point ⟨25, 89⟩, []⟩]⟩

/-! ### Helper lemmas -/

theorem coords_mapCoords (f : Coord → Coord) (g : Geometry) :
    (g.mapCoords f).coords = g.coords.map f := by
  cases g <;> rfl

theorem reproject_ok_elim (tf : CRS → CRS → Coord → Coord) (c : FeatureCollection)
    (t : CRS) (d : FeatureCollection) (h : reproject tf c t = .ok d) :
    ∃ s, c.crs = some s ∧ d.crs = some t ∧
      d.features = c.features.map (transformFeature (tf s t)) ∧
      (allCoords c).all (fun v => inEnvelope t v) = true := by
  cases hc : c.crs with
  | none => simp [reproject, hc] at h
  | some s =>
      simp only [reproject, hc] at h
      split at h
      · rename_i he
        cases h
        exact ⟨s, rfl, rfl, rfl, he⟩
      · cases h

theorem coordsList_map (f : Coord → Coord) (fs : List Feature) :
    ((fs.map (transformFeature f)).map (fun ft => ft.geometry.coords)).flatten
      = ((fs.map (fun ft => ft.geometry.coords)).flatten).map f := by
  induction fs with
  | nil => rfl
  | cons a fs ih =>
      simp only [List.map_cons, List.flatten_cons, List.map_append]
      congr 1
      exact coords_mapCoords f a.geometry

theorem runReproject_none (tf : CRS → CRS → Coord → Coord) (s : Store)
    (src dst : String) (t : CRS) (hc : List.lookup src s = none) :
    runReproject tf s src dst t = s := by
  unfold runReproject
  rw [hc]

theorem runReproject_some (tf : CRS → CRS → Coord → Coord) (s : Store)
    (src dst : String) (t : CRS) (c : FeatureCollection)
    (hc : List.lookup src s = some c) :
    runReproject tf s src dst t =
      match reproject tf c t with
      | .ok d => (dst, d) :: s
      | .error _ => s := by
  unfold runReproject
  rw [hc]

theorem allCoords_of_map (f : Coord → Coord) (c d : FeatureCollection)
    (h : d.features = c.features.map (transformFeature f)) :
    allCoords d = (allCoords c).map f := by
  unfold allCoords
  rw [h]
  exact coordsList_map f c.features

theorem zip_map_tol (g : Coord → Coord) (ε : ℚ) (hg : ∀ p, cdist (g p) p ≤ ε)
    (l : List Coord) : ∀ pr ∈ (l.map g).zip l, cdist pr.1 pr.2 ≤ ε := by
  induction l with
  | nil => intro pr hpr; cases hpr
  | cons a l ih =>
      intro pr hpr
      simp only [List.map_cons, List.zip_cons_cons, List.mem_cons] at hpr
      rcases hpr with h | h
      · rw [h]; exact hg a
      · exact ih pr h

/-! ### Claim theorems -/

/-- C1: `set_crs` on a collection whose CRS is undefined never fails, and on a
collection that already has a different (non-undefined) CRS it always fails
with `InvalidCRSError`. -/
theorem set_crs_error_policy (c : FeatureCollection) (a : CRS) :
    (c.crs = none → ∃ d, set_crs c a = .ok d) ∧
    (∀ b, c.crs = some b → b.code ≠ a.code →
      set_crs c a = .error .invalidCRSError) := by
  constructor
  · intro h
    exact ⟨{ c with crs := some a }, by simp [set_crs, h]⟩
  · intro b hb hne
    simp [set_crs, hb, hne]

/-- Witness for C1 at concrete collections. -/
theorem set_crs_error_policy_w :
    (∃ d, set_crs demoU wgs84 = .ok d) ∧
    set_crs demoC webMercator = .error .invalidCRSError :=
  ⟨(set_crs_error_policy demoU wgs84).1 rfl,
   (set_crs_error_policy demoC webMercator).2 wgs84 rfl (by decide)⟩

/-- C2: a successful `set_crs` returns a collection with exactly the same
features (hence the same coordinate values at every vertex); only the CRS
label differs. -/
theorem set_crs_keeps_coords (c : FeatureCollection) (a : CRS)
    (d : FeatureCollection) (h : set_crs c a = .ok d) :
    d.features = c.features ∧ allCoords d = allCoords c := by
  have hf : d.features = c.features := by
    cases hc : c.crs with
    | none => simp only [set_crs, hc] at h; cases h; rfl
    | some b =>
        simp only [set_crs, hc] at h
        split at h
        · cases h; rfl
        · cases h
  refine ⟨hf, ?_⟩
  unfold allCoords
  rw [hf]

/-- Witness for C2 at a concrete collection. -/
theorem set_crs_keeps_coords_w :
    allCoords ⟨some wgs84, demoU.features⟩ = allCoords demoU :=
  (set_crs_keeps_coords demoU wgs84 ⟨some wgs84, demoU.features⟩ rfl).2

/-- C3: reprojection does not mutate its input: in the store model of the
notebook's variables, the source binding (hence its bounds and coordinates)
is identical before and after the call, and on success the new collection is
returned under the destination binding. -/
theorem reproject_no_mutation (tf : CRS → CRS → Coord → Coord) (s : Store)
    (src dst : String) (t : CRS) (h : src ≠ dst) :
    List.lookup src (runReproject tf s src dst t) = List.lookup src s ∧
    Option.map bounds (List.lookup src (runReproject tf s src dst t))
      = Option.map bounds (List.lookup src s) ∧
    ∀ c d, List.lookup src s = some c → reproject tf c t = .ok d →
      List.lookup dst (runReproject tf s src dst t) = some d := by
  have hb : (src == dst) = false := beq_eq_false_iff_ne.mpr h
  have h1 : List.lookup src (runReproject tf s src dst t) = List.lookup src s := by
    cases hc : List.lookup src s with
    | none =>
        rw [runReproject_none tf s src dst t hc]
        exact hc
    | some c =>
        cases hr : reproject tf c t with
        | ok d =>
            rw [runReproject_some tf s src dst t c hc, hr]
            simp [List.lookup, hb, hc]
        | error e =>
            rw [runReproject_some tf s src dst t c hc, hr]
            exact hc
  refine ⟨h1, by rw [h1], ?_⟩
  intro c d hc hr
  rw [runReproject_some tf s src dst t c hc, hr]
  simp [List.lookup]

/-- Witness for C3 at a concrete store. -/
theorem reproject_no_mutation_w :
    List.lookup "data" (runReproject idTf [("data", demoC)] "data" "data_in_3857" webMercator)
      = List.lookup "data" [("data", demoC)] :=
  (reproject_no_mutation idTf [("data", demoC)] "data" "data_in_3857" webMercator (by decide)).1

/-- C4: reprojecting a collection whose CRS is undefined fails with
`UndefinedCRSError`, and in the store model the failed call leaves the store
(hence the input collection) unchanged. -/
theorem reproject_undefined_crs (tf : CRS → CRS → Coord → Coord)
    (c : FeatureCollection) (t : CRS) (h : c.crs = none) :
    reproject tf c t = .error .undefinedCRSError ∧
    ∀ s src dst, List.lookup src s = some c → runReproject tf s src dst t = s := by
  have h1 : reproject tf c t = .error .undefinedCRSError := by
    unfold reproject
    rw [h]
  refine ⟨h1, ?_⟩
  intro s src dst hl
  rw [runReproject_some tf s src dst t c hl, h1]

/-- Witness for C4 at a concrete store holding an undefined-CRS collection. -/
theorem reproject_undefined_crs_w :
    runReproject idTf [("newdata", demoU)] "newdata" "out" webMercator
      = [("newdata", demoU)] :=
  (reproject_undefined_crs idTf demoU webMercator rfl).2
    [("newdata", demoU)] "newdata" "out" (by decide)

/-- C5: `area` and `length` always return one number per feature, and the
accompanying unit-mismatch warning is present exactly when the collection's
CRS has angular units (so never under a linear-unit CRS). -/
theorem unit_warning (seg : Coord → Coord → ℚ) (c : FeatureCollection) :
    (areaOp c).1.length = c.features.length ∧
    (lengthOp seg c).1.length = c.features.length ∧
    ∀ a, c.crs = some a →
      (((areaOp c).2 = true ↔ a.units = .angular) ∧
       ((lengthOp seg c).2 = true ↔ a.units = .angular)) := by
  refine ⟨by simp [areaOp], by simp [lengthOp], ?_⟩
  intro a ha
  constructor <;> simp [areaOp, lengthOp, angularUnits, ha]

/-- Witness for C5: the demo collection under the angular WGS84 CRS warns. -/
theorem unit_warning_w : (areaOp demoC).2 = true :=
  (((unit_warning segZero demoC).2.2 wgs84 rfl).1).mpr rfl

/-- C6: if any input coordinate lies outside the target projection's validity
envelope, `reproject` fails with `ProjectionRangeError` (so it never returns
clamped or invalid coordinates). -/
theorem reproject_range (tf : CRS → CRS → Coord → Coord) (c : FeatureCollection)
    (s t : CRS) (hs : c.crs = some s) (v : Coord) (hv : v ∈ allCoords c)
    (he : inEnvelope t v = false) :
    reproject tf c t = .error .projectionRangeError := by
  have hall : (allCoords c).all (fun v => inEnvelope t v) = false := by
    cases hb : (allCoords c).all (fun v => inEnvelope t v) with
    | false => rfl
    | true =>
        have hx := List.all_eq_true.mp hb v hv
        rw [he] at hx
        cases hx
  simp [reproject, hs, hall]

/-- Witness for C6: a point near latitude 89° reprojected into Web Mercator. -/
theorem reproject_range_w :
    reproject idTf demoPolar webMercator = .error .projectionRangeError :=
  reproject_range idTf demoPolar wgs84 webMercator rfl ⟨25, 89⟩ (by decide) (by decide)

/-- C7: reprojection is deterministic, and when the external forward and
inverse transforms of a CRS pair are pointwise inverse up to tolerance ε,
the round trip A→B→A carries every vertex to within ε of the original. -/
theorem reproject_roundtrip (tf : CRS → CRS → Coord → Coord) (A B : CRS) (ε : ℚ)
    (hinv : ∀ p, cdist (tf B A (tf A B p)) p ≤ ε)
    (c c1 c2 : FeatureCollection) (hA : c.crs = some A)
    (h1 : reproject tf c B = .ok c1) (h2 : reproject tf c1 A = .ok c2) :
    (∀ pr ∈ (allCoords c2).zip (allCoords c), cdist pr.1 pr.2 ≤ ε) ∧
    (allCoords c2).length = (allCoords c).length ∧
    ∀ c3 : FeatureCollection, c3 = c → reproject tf c3 B = reproject tf c B := by
  obtain ⟨s1, hs1, hc1crs, hc1f, -⟩ := reproject_ok_elim tf c B c1 h1
  obtain ⟨s2, hs2, hc2crs, hc2f, -⟩ := reproject_ok_elim tf c1 A c2 h2
  rw [hA] at hs1
  injection hs1 with hs1
  subst hs1
  rw [hc1crs] at hs2
  injection hs2 with hs2
  subst hs2
  have e1 : allCoords c1 = (allCoords c).map (tf A B) := allCoords_of_map _ c c1 hc1f
  have e2 : allCoords c2 = (allCoords c1).map (tf B A) := allCoords_of_map _ c1 c2 hc2f
  have e3 : allCoords c2 = (allCoords c).map (fun p => tf B A (tf A B p)) := by
    rw [e2, e1, List.map_map]
    rfl
  refine ⟨?_, by rw [e3, List.length_map], fun c3 h3 => by rw [h3]⟩
  rw [e3]
  exact zip_map_tol _ ε hinv (allCoords c)

/-- Witness for C7: an exact (ε = 0) round trip on the demo collection. -/
theorem reproject_roundtrip_w :
    (allCoords demoC).length = (allCoords demoC).length :=
  (reproject_roundtrip idTf wgs84 webMercator 0
    (fun p => by simp [cdist, idTf, sub_self])
    demoC demoC3857 demoC rfl rfl rfl).2.1

/-- C8: all features share the collection's single CRS tag, and a successful
`reproject` produces, in one atomic value, the target tag together with every
feature's geometry transformed; partial mixtures are not observable. -/
theorem reproject_atomic (tf : CRS → CRS → Coord → Coord) (c : FeatureCollection)
    (s t : CRS) (d : FeatureCollection) (hs : c.crs = some s)
    (h : reproject tf c t = .ok d) :
    d.crs = some t ∧
    d.features = c.features.map (transformFeature (tf s t)) ∧
    (∀ i j : Nat, featureCRS d i = featureCRS d j) ∧
    (∀ i : Nat, featureCRS d i = some t) := by
  obtain ⟨s0, hs0, hdc, hdf, -⟩ := reproject_ok_elim tf c t d h
  rw [hs] at hs0
  injection hs0 with hs0
  subst hs0
  exact ⟨hdc, hdf, fun i j => rfl, fun i => hdc⟩

/-- Witness for C8 at a concrete reprojection. -/
theorem reproject_atomic_w : demoC3857.crs = some webMercator :=
  (reproject_atomic idTf demoC wgs84 webMercator demoC3857 rfl rfl).1

/-- C9: the CRS state machine: `reproject` always fails on an undefined CRS
(so only `set_crs` leaves the undefined state), a successful `set_crs` never
removes an assigned CRS, and a successful `reproject` starts from an assigned
CRS and ends in an assigned CRS (the target). -/
theorem crs_state_machine (tf : CRS → CRS → Coord → Coord)
    (c : FeatureCollection) (a t : CRS) :
    (c.crs = none → reproject tf c t = .error .undefinedCRSError) ∧
    (∀ d, set_crs c a = .ok d →
      (c.crs = none → d.crs = some a) ∧ ∀ b, c.crs = some b → d.crs = some b) ∧
    (∀ d, reproject tf c t = .ok d → (∃ s, c.crs = some s) ∧ d.crs = some t) := by
  refine ⟨?_, ?_, ?_⟩
  · intro h
    unfold reproject
    rw [h]
  · intro d hd
    constructor
    · intro h
      simp only [set_crs, h] at hd
      cases hd
      rfl
    · intro b hb
      simp only [set_crs, hb] at hd
      split at hd
      · cases hd; exact hb
      · cases hd
  · intro d hd
    obtain ⟨s, hs, hdc, -, -⟩ := reproject_ok_elim tf c t d hd
    exact ⟨⟨s, hs⟩, hdc⟩

/-- Witness for C9: assigning WGS84 to an undefined-CRS collection lands in
the assigned state. -/
theorem crs_state_machine_w :
    (⟨some wgs84, demoU.features⟩ : FeatureCollection).crs = some wgs84 :=
  ((crs_state_machine idTf demoU wgs84 webMercator).2.1
    ⟨some wgs84, demoU.features⟩ rfl).1 rfl

/-- C10: a successful `reproject` keeps the number and order of features and
every feature's attributes; only geometries and the CRS tag change. -/
theorem reproject_keeps_attrs (tf : CRS → CRS → Coord → Coord)
    (c : FeatureCollection) (t : CRS) (d : FeatureCollection)
    (h : reproject tf c t = .ok d) :
    d.features.length = c.features.length ∧
    ∀ i : Nat, d.features[i]?.map Feature.attrs = c.features[i]?.map Feature.attrs := by
  obtain ⟨s, hs, -, hdf, -⟩ := reproject_ok_elim tf c t d h
  refine ⟨by rw [hdf, List.length_map], ?_⟩
  intro i
  rw [hdf, List.getElem?_map]
  cases c.features[i]? with
  | none => rfl
  | some ft => rfl

/-- Witness for C10 at a concrete reprojection. -/
theorem reproject_keeps_attrs_w :
    demoC3857.features.length = demoC.features.length :=
  (reproject_keeps_attrs idTf demoC webMercator demoC3857 rfl).1

end GIS
